import Mathlib

/-!
Verification of the cache / remote-store synchronizer implemented by the
class FirebaseSync in run/firebase_sync.py.

The embedding models the sync module faithfully:
  - a remote bucket is a list of blobs (full path, byte content, and the
    md5_hash metadata the store reports for the blob), together with the
    behaviour of its network operations (whether a fetch of a given path
    succeeds, whether a push succeeds, whether listing raises);
  - the local cache directory is an association list from file name
    (basename) to file bytes;
  - the md5 function is an abstract parameter (the code only ever compares
    digests for equality);
  - download_file, list_files, download_all, upload_file and sync_folder
    follow the Python control flow branch by branch; results additionally
    carry the list of fetch calls performed (remote path, destination path)
    and the list of push calls performed, so that claims about network-call
    counts and download destinations can be stated;
  - fields of the listing dictionaries that never influence control flow
    (tamanho, atualizado) are omitted;
  - self.initialized is always true for a constructed FirebaseSync object
    (the constructor raises when initialization fails), so the early
    not-initialized returns are not modelled.

Blob.download_to_filename is an external library call; it is modelled at
the level of its contract: it opens the destination file for writing and
then streams the blob into it, so it either completes, or raises midway
leaving whatever bytes were already written (possibly none) visible at the
destination path.
-/

namespace FirebaseSync

/-- Status component of the pair returned by download_file: the Python
strings "downloaded" and "cached". -/
inductive Status where
  | downloaded
  | cached
deriving DecidableEq

/-- os.path.basename for slash-separated remote paths: the characters
after the last slash. -/
def basename (s : String) : String :=
  ⟨(s.data.reverse.takeWhile (fun c => c != '/')).reverse⟩

/-- str.startswith. -/
def strStartsWith (s pre : String) : Bool :=
  pre.data.isPrefixOf s.data

/-- str.endswith. -/
def strEndsWith (s suf : String) : Bool :=
  suf.data.isSuffixOf s.data

/-- str.lower. -/
def lowerStr (s : String) : String :=
  ⟨s.data.map Char.toLower⟩

/-- A remote object in the storage bucket: its fully-qualified path, its
byte content, and the md5_hash metadata the store reports for it. -/
structure Blob where
  path : String
  content : String
  md5_hash : String
deriving DecidableEq

/-- Outcome of one blob.download_to_filename call: the transfer completes,
or it is interrupted midway, leaving the bytes written so far (possibly
none) at the destination, because the destination file is opened for
writing before the transfer starts. -/
inductive FetchOutcome where
  | success
  | interrupted (leftover : String)
deriving DecidableEq

/-- The remote store together with the behaviour of its network calls. -/
structure Store where
  objects : List Blob
  fetchBehavior : String → FetchOutcome
  pushBehavior : String → Bool
  listFails : Bool

/-- The local cache directory: file name (basename) to file bytes. -/
abbrev Cache := List (String × String)

/-- Content of the cached file with the given name, if present. -/
def cacheLookup (c : Cache) (n : String) : Option String :=
  (c.find? (fun e => e.1 == n)).map (fun e => e.2)

/-- Writing a file into the cache directory overwrites any file of the
same name. -/
def cacheInsert (c : Cache) (n v : String) : Cache :=
  (n, v) :: c.filter (fun e => e.1 != n)

/-- bucket.blob(p).exists() together with the blob metadata: the first
blob of the bucket whose path is p, if any. -/
def storeLookup (objects : List Blob) (p : String) : Option Blob :=
  objects.find? (fun b => b.path == p)

/-- One entry of the list returned by list_files: the dictionary keys
nome, caminho and md5_hash (tamanho and atualizado never influence any
control flow and are omitted). -/
structure FileInfo where
  nome : String
  caminho : String
  md5_hash : String
deriving DecidableEq

/-- The filter applied by list_files: the blob lies under the requested
path and its name ends in .dwg (case-insensitively). -/
def keepsBlob (pre : String) (b : Blob) : Bool :=
  strStartsWith b.path pre && strEndsWith (lowerStr b.path) ".dwg"

/-- The listing dictionary built for one blob. -/
def toFileInfo (b : Blob) : FileInfo :=
  ⟨basename b.path, b.path, b.md5_hash⟩

/-- FirebaseSync.list_files: lists the .dwg blobs under the given path;
when the underlying listing raises, the exception is caught and the empty
list is returned. -/
def list_files (store : Store) (pre : String) : List FileInfo :=
  if store.listFails then []
  else (store.objects.filter (keepsBlob pre)).map toFileInfo

/-- Result of FirebaseSync.download_file: the returned value (a pair of
local path and status, or None on failure), the cache directory contents
afterwards, and the download_to_filename calls performed, each recorded as
(remote path, destination path). -/
structure DFResult where
  result : Option (String × Status)
  cache : Cache
  fetched : List (String × String)
deriving DecidableEq

/-- FirebaseSync.download_file. The local destination is
cache_dir / basename(remote_path). With the file already cached and force
unset, the blob metadata digest is compared against the md5 of the cached
bytes and on a match the cached path is returned with status cached; in
every other case the blob is downloaded directly to the local destination
(returning None when the blob does not exist); an exception during the
download is caught and None is returned. -/
def download_file (hash : String → String) (store : Store) (cacheDir : String)
    (cache : Cache) (remote_path : String) (force : Bool) : DFResult :=
  let name := basename remote_path
  let local_file := cacheDir ++ "/" ++ name
  let fetchStep : DFResult :=
    match storeLookup store.objects remote_path with
    | none => ⟨none, cache, []⟩
    | some blob =>
        match store.fetchBehavior remote_path with
        | .success =>
            ⟨some (local_file, .downloaded), cacheInsert cache name blob.content,
              [(remote_path, local_file)]⟩
        | .interrupted leftover =>
            ⟨none, cacheInsert cache name leftover, [(remote_path, local_file)]⟩
  match cacheLookup cache name, force with
  | some localContent, false =>
      match storeLookup store.objects remote_path with
      | some blob =>
          if hash localContent == blob.md5_hash then
            ⟨some (local_file, .cached), cache, []⟩
          else fetchStep
      | none => fetchStep
  | some _, true => fetchStep
  | none, _ => fetchStep

/-- The statistics dictionary built by FirebaseSync.download_all. -/
structure DownStats where
  downloaded : Nat
  cached : Nat
  failed : Nat
deriving DecidableEq

/-- The per-file loop of FirebaseSync.download_all: each listed file is
passed to download_file (threading the cache directory state) and counted
as downloaded, cached or failed according to the returned value. -/
def processFiles (hash : String → String) (store : Store) (cacheDir : String)
    (force : Bool) : List FileInfo → Cache → DownStats × Cache
  | [], c => (⟨0, 0, 0⟩, c)
  | f :: rest, c =>
      let r := download_file hash store cacheDir c f.caminho force
      let r2 := processFiles hash store cacheDir force rest r.cache
      match r.result with
      | some (_, .downloaded) => (⟨r2.1.downloaded + 1, r2.1.cached, r2.1.failed⟩, r2.2)
      | some (_, .cached) => (⟨r2.1.downloaded, r2.1.cached + 1, r2.1.failed⟩, r2.2)
      | none => (⟨r2.1.downloaded, r2.1.cached, r2.1.failed + 1⟩, r2.2)

/-- FirebaseSync.download_all: lists the remote files (default path
CONTROLE/) and downloads each one into the cache. -/
def download_all (hash : String → String) (store : Store) (cacheDir : String)
    (cache : Cache) (force : Bool) : DownStats × Cache :=
  processFiles hash store cacheDir force (list_files store "CONTROLE/") cache

/-- A cache directory is good for a listed file when it holds, under the
file's name, bytes whose digest equals the md5_hash metadata of the
listing entry: exactly the condition under which download_file serves the
file from the cache. -/
def GoodFor (hash : String → String) (c : Cache) (f : FileInfo) : Prop :=
  ∃ content, cacheLookup c (basename f.caminho) = some content ∧
    hash content = f.md5_hash

/-- FirebaseSync.upload_file: fails when the local file does not exist,
otherwise pushes it to the remote path and reports whether the push
succeeded (an exception during the push is caught and False returned). -/
def upload_file (store : Store) (localExists : Bool) (remote_path : String) : Bool :=
  if localExists then store.pushBehavior remote_path else false

/-- The dictionary of remote files built by FirebaseSync.sync_folder,
keyed by file name; a Python dict comprehension keeps the last entry for a
repeated key. -/
def remoteDict (l : List FileInfo) (k : String) : Option FileInfo :=
  l.reverse.find? (fun f => f.nome == k)

/-- The statistics dictionary built by FirebaseSync.sync_folder. -/
structure UpStats where
  uploaded : Nat
  skipped : Nat
  failed : Nat
deriving DecidableEq

/-- The per-file loop of FirebaseSync.sync_folder: a local file whose name
has a remote counterpart with the same digest is skipped; every other
local file is uploaded to remote prefix plus name, counting successes and
failures. Also returns the remote paths of the upload calls performed, in
order. -/
def processLocals (hash : String → String) (store : Store) (pre : String)
    (remotes : List FileInfo) : List (String × String) → UpStats × List String
  | [] => (⟨0, 0, 0⟩, [])
  | (fname, contents) :: rest =>
      let r := processLocals hash store pre remotes rest
      let remote_path := pre ++ fname
      let pushed : UpStats × List String :=
        if upload_file store true remote_path then
          (⟨r.1.uploaded + 1, r.1.skipped, r.1.failed⟩, remote_path :: r.2)
        else
          (⟨r.1.uploaded, r.1.skipped, r.1.failed + 1⟩, remote_path :: r.2)
      match remoteDict remotes fname with
      | some rf =>
          if hash contents == rf.md5_hash then
            (⟨r.1.uploaded, r.1.skipped + 1, r.1.failed⟩, r.2)
          else pushed
      | none => pushed

/-- FirebaseSync.sync_folder: filters the local folder listing down to
.dwg files, lists the remote files under the prefix, and runs the upload
loop. The local folder is given as its listing (file name, file bytes). -/
def sync_folder (hash : String → String) (store : Store)
    (localFiles : List (String × String)) (pre : String) : UpStats × List String :=
  processLocals hash store pre (list_files store pre)
    (localFiles.filter (fun f => strEndsWith (lowerStr f.1) ".dwg"))

/-- The decision taken by sync_folder for one local file: it needs an
upload unless a remote file of the same name exists whose md5_hash equals
the local digest. -/
def needsUpload (hash : String → String) (remotes : List FileInfo)
    (f : String × String) : Bool :=
  match remoteDict remotes f.1 with
  | some rf => !(hash f.2 == rf.md5_hash)
  | none => true

/-- The mutable FirebaseSync state read and written by start_auto_sync and
stop_auto_sync: whether self.sync_thread is set and alive, and the
self.running flag. -/
structure EngineState where
  threadAlive : Bool
  running : Bool
deriving DecidableEq

/-- The warning printed when start_auto_sync finds the loop running. -/
def alreadyRunningMsg : String := "auto sync ja esta rodando"

/-- The message printed when start_auto_sync starts the loop. -/
def startedMsg : String := "auto sync iniciada"

/-- FirebaseSync.start_auto_sync: when the sync thread is already alive it
prints a warning and returns (the Python function returns None on every
path, so the caller receives no indication); otherwise it sets running and
starts the loop thread. Returns the new state and the printed messages. -/
def start_auto_sync (st : EngineState) (_interval : Nat) : EngineState × List String :=
  if st.threadAlive then (st, [alreadyRunningMsg])
  else ({ threadAlive := true, running := true }, [startedMsg])

/-- The value FirebaseSync.start_auto_sync returns to its caller: the
Python function ends with a bare return on the already-running path and
falls off the end otherwise, so every call returns None. -/
def start_auto_sync_ret (_st : EngineState) (_interval : Nat) : Option Unit :=
  none

/-- The between-cycle wait of FirebaseSync._auto_sync_loop, in discrete
one-second ticks: up to interval iterations, each checking the running
flag (as a function of the current time) and sleeping one second while it
is still set. Returns the number of seconds slept, starting at time t0. -/
def sleep_loop (running : Nat → Bool) : Nat → Nat → Nat
  | _, 0 => 0
  | t0, n + 1 => if running t0 then sleep_loop running (t0 + 1) n + 1 else 0

/-- FirebaseSync._auto_sync_loop in discrete time: while the running flag
holds, perform one download_all cycle (taking cycleDur seconds) and then
the between-cycle sleep loop. Returns the start times of the cycles
performed; fuel bounds the number of iterations considered. -/
def auto_sync_loop (running : Nat → Bool) (interval cycleDur : Nat) :
    Nat → Nat → List Nat
  | _, 0 => []
  | t, fuel + 1 =>
      if running t then
        t :: auto_sync_loop running interval cycleDur
          (t + cycleDur + sleep_loop running (t + cycleDur) interval) fuel
      else []

/-- FirebaseSync.stop_auto_sync clears the running flag at time c and
joins the loop thread with a five-second timeout: it returns after the
thread exit or after five seconds, whichever comes first. -/
def stop_join_delay (c threadExit : Nat) : Nat :=
  min (threadExit - c) 5

end FirebaseSync

namespace FirebaseSync

/-- C1: when the file is already in the cache directory and the remote
md5_hash metadata equals the md5 of the cached bytes, download_file with
force unset performs no download_to_filename call, leaves the cache
unchanged, and returns the cached local path with status cached. -/
theorem download_file_cached_no_fetch (hash : String → String) (store : Store)
    (cacheDir : String) (cache : Cache) (remote_path : String)
    (lc : String) (blob : Blob)
    (hc : cacheLookup cache (basename remote_path) = some lc)
    (hb : storeLookup store.objects remote_path = some blob)
    (hd : blob.md5_hash = hash lc) :
    download_file hash store cacheDir cache remote_path false =
      ⟨some (cacheDir ++ "/" ++ basename remote_path, .cached), cache, []⟩ := by
  simp [download_file, hc, hb, hd]

/-- C1 witness: a concrete store holding CONTROLE/A.dwg with digest abc123
and a cache already holding A.dwg whose bytes hash to abc123: no fetch,
status cached. -/
theorem download_file_cached_no_fetch_witness :
    download_file (fun _ => "abc123")
      ⟨[⟨"CONTROLE/A.dwg", "bytesA", "abc123"⟩], fun _ => .success, fun _ => true, false⟩
      "cache" [("A.dwg", "bytesA")] "CONTROLE/A.dwg" false =
      ⟨some ("cache" ++ "/" ++ basename "CONTROLE/A.dwg", .cached),
        [("A.dwg", "bytesA")], []⟩ :=
  download_file_cached_no_fetch (fun _ => "abc123")
    ⟨[⟨"CONTROLE/A.dwg", "bytesA", "abc123"⟩], fun _ => .success, fun _ => true, false⟩
    "cache" [("A.dwg", "bytesA")] "CONTROLE/A.dwg" "bytesA"
    ⟨"CONTROLE/A.dwg", "bytesA", "abc123"⟩ (by decide) (by decide) (by decide)

/-- C3: when the file is cached but the md5 of the cached bytes differs
from the remote md5_hash metadata and the fetch succeeds, download_file
with force unset performs exactly one download_to_filename call, returns
the local path with status downloaded, and afterwards the cache holds the
newly downloaded blob content under the file name. -/
theorem download_file_stale_refetch (hash : String → String) (store : Store)
    (cacheDir : String) (cache : Cache) (remote_path : String)
    (lc : String) (blob : Blob)
    (hc : cacheLookup cache (basename remote_path) = some lc)
    (hb : storeLookup store.objects remote_path = some blob)
    (hd : hash lc ≠ blob.md5_hash)
    (hf : store.fetchBehavior remote_path = .success) :
    download_file hash store cacheDir cache remote_path false =
      ⟨some (cacheDir ++ "/" ++ basename remote_path, .downloaded),
        cacheInsert cache (basename remote_path) blob.content,
        [(remote_path, cacheDir ++ "/" ++ basename remote_path)]⟩ ∧
    cacheLookup (cacheInsert cache (basename remote_path) blob.content)
      (basename remote_path) = some blob.content := by
  constructor
  · simp [download_file, hc, hb, hf, hd]
  · simp [cacheLookup, cacheInsert]

/-- C3 witness: the cache holds A.dwg with digest xyz999 while the remote
digest is abc123: exactly one fetch, status downloaded, new content
cached. -/
theorem download_file_stale_refetch_witness :
    download_file (fun s => if s == "oldbytes" then "xyz999" else "abc123")
      ⟨[⟨"CONTROLE/A.dwg", "newbytes", "abc123"⟩], fun _ => .success, fun _ => true, false⟩
      "cache" [("A.dwg", "oldbytes")] "CONTROLE/A.dwg" false =
      ⟨some ("cache" ++ "/" ++ basename "CONTROLE/A.dwg", .downloaded),
        cacheInsert [("A.dwg", "oldbytes")] (basename "CONTROLE/A.dwg") "newbytes",
        [("CONTROLE/A.dwg", "cache" ++ "/" ++ basename "CONTROLE/A.dwg")]⟩ ∧
    cacheLookup (cacheInsert [("A.dwg", "oldbytes")] (basename "CONTROLE/A.dwg") "newbytes")
      (basename "CONTROLE/A.dwg") = some "newbytes" :=
  download_file_stale_refetch (fun s => if s == "oldbytes" then "xyz999" else "abc123")
    ⟨[⟨"CONTROLE/A.dwg", "newbytes", "abc123"⟩], fun _ => .success, fun _ => true, false⟩
    "cache" [("A.dwg", "oldbytes")] "CONTROLE/A.dwg" "oldbytes"
    ⟨"CONTROLE/A.dwg", "newbytes", "abc123"⟩ (by decide) (by decide) (by decide) (by decide)

/-- C4 counterexample: download_file passes the final cache path (not a
temporary path) as the destination of the download, and a download that
fails midway leaves the partial bytes in the cache under the final name:
starting from a cache holding f.dwg with bytes OLD, a download of
CONTROLE/f.dwg interrupted after writing NE returns None (failure), its one
fetch call targeted exactly the final path cache/f.dwg, and afterwards the
cache holds NE, not OLD, under f.dwg. -/
theorem download_direct_write_counterexample :
    download_file (fun s => s)
      ⟨[⟨"CONTROLE/f.dwg", "NEWBYTES", "mNEW"⟩],
        fun _ => .interrupted "NE", fun _ => true, false⟩
      "cache" [("f.dwg", "OLD")] "CONTROLE/f.dwg" false =
      ⟨none, [("f.dwg", "NE")], [("CONTROLE/f.dwg", "cache/f.dwg")]⟩ ∧
    "cache/f.dwg" = "cache" ++ "/" ++ basename "CONTROLE/f.dwg" ∧
    cacheLookup [("f.dwg", "NE")] "f.dwg" ≠ some "OLD" := by
  decide

/-- C4 amended: when the blob exists but its download is interrupted,
download_file returns None, its single fetch call has the final cache path
as destination, and the cache afterwards holds the partial bytes under the
final name (the cache state for that name is not preserved on failure). -/
theorem download_file_failure_mutates_cache (hash : String → String) (store : Store)
    (cacheDir : String) (cache : Cache) (remote_path : String)
    (blob : Blob) (leftover : String)
    (hc : cacheLookup cache (basename remote_path) = none)
    (hb : storeLookup store.objects remote_path = some blob)
    (hf : store.fetchBehavior remote_path = .interrupted leftover) :
    download_file hash store cacheDir cache remote_path false =
      ⟨none, cacheInsert cache (basename remote_path) leftover,
        [(remote_path, cacheDir ++ "/" ++ basename remote_path)]⟩ ∧
    cacheLookup (cacheInsert cache (basename remote_path) leftover)
      (basename remote_path) = some leftover := by
  constructor
  · simp [download_file, hc, hb, hf]
  · simp [cacheLookup, cacheInsert]

/-- Helper: the stats of the download_all loop partition the processed
list: every file lands in exactly one of the three counters. -/
theorem processFiles_length (hash : String → String) (store : Store)
    (cacheDir : String) (force : Bool) :
    ∀ (l : List FileInfo) (c : Cache),
      (processFiles hash store cacheDir force l c).1.downloaded +
        (processFiles hash store cacheDir force l c).1.cached +
        (processFiles hash store cacheDir force l c).1.failed = l.length := by
  intro l
  induction l with
  | nil => intro c; simp [processFiles]
  | cons f rest ih =>
      intro c
      have h := ih (download_file hash store cacheDir c f.caminho force).cache
      simp only [processFiles]
      rcases hr : (download_file hash store cacheDir c f.caminho force).result with - | ⟨p, st⟩
      · simpa [hr] using by omega
      · cases st <;> simpa [hr] using by omega

/-- C10: the report of download_all partitions the listed objects; the
three counters sum to the length of the listing. -/
theorem download_all_counts_partition (hash : String → String) (store : Store)
    (cacheDir : String) (cache : Cache) (force : Bool) :
    (download_all hash store cacheDir cache force).1.downloaded +
      (download_all hash store cacheDir cache force).1.cached +
      (download_all hash store cacheDir cache force).1.failed =
      (list_files store "CONTROLE/").length :=
  processFiles_length hash store cacheDir force (list_files store "CONTROLE/") cache

/-- C2: batch partial failure. For a remote listing of five objects whose
contents and digests are arbitrary, where fetching the third object is
interrupted and every other fetch succeeds, download_all from an empty
cache counts exactly one failure, counts the other four as downloaded, and
still processes the objects after the failing one (their contents end up
in the cache); the batch itself always returns a report. -/
theorem download_all_partial_failure (hash : String → String)
    (c1 c2 c3 c4 c5 m1 m2 m3 m4 m5 : String) :
    (download_all hash
        ⟨[⟨"CONTROLE/f1.dwg", c1, m1⟩, ⟨"CONTROLE/f2.dwg", c2, m2⟩,
          ⟨"CONTROLE/f3.dwg", c3, m3⟩, ⟨"CONTROLE/f4.dwg", c4, m4⟩,
          ⟨"CONTROLE/f5.dwg", c5, m5⟩],
          fun p => if p == "CONTROLE/f3.dwg" then .interrupted "junk" else .success,
          fun _ => true, false⟩
        "cache" [] false).1 = ⟨4, 0, 1⟩ ∧
    cacheLookup (download_all hash
        ⟨[⟨"CONTROLE/f1.dwg", c1, m1⟩, ⟨"CONTROLE/f2.dwg", c2, m2⟩,
          ⟨"CONTROLE/f3.dwg", c3, m3⟩, ⟨"CONTROLE/f4.dwg", c4, m4⟩,
          ⟨"CONTROLE/f5.dwg", c5, m5⟩],
          fun p => if p == "CONTROLE/f3.dwg" then .interrupted "junk" else .success,
          fun _ => true, false⟩
        "cache" [] false).2 "f4.dwg" = some c4 ∧
    cacheLookup (download_all hash
        ⟨[⟨"CONTROLE/f1.dwg", c1, m1⟩, ⟨"CONTROLE/f2.dwg", c2, m2⟩,
          ⟨"CONTROLE/f3.dwg", c3, m3⟩, ⟨"CONTROLE/f4.dwg", c4, m4⟩,
          ⟨"CONTROLE/f5.dwg", c5, m5⟩],
          fun p => if p == "CONTROLE/f3.dwg" then .interrupted "junk" else .success,
          fun _ => true, false⟩
        "cache" [] false).2 "f5.dwg" = some c5 :=
  ⟨rfl, rfl, rfl⟩

/-- C6 counterexample: with the same bucket contents, a listing that
raises is caught by list_files and the empty list is returned, the very
value a successful listing of an empty folder produces; the nonempty
bucket shows the emptiness is a silent fallback, not a propagated typed
error. -/
theorem list_files_failure_counterexample :
    list_files ⟨[⟨"CONTROLE/A.dwg", "bytesA", "abc123"⟩],
        fun _ => .success, fun _ => true, true⟩ "CONTROLE/" = [] ∧
    list_files ⟨[⟨"CONTROLE/A.dwg", "bytesA", "abc123"⟩],
        fun _ => .success, fun _ => true, false⟩ "CONTROLE/" ≠ [] := by
  decide

/-- C6 amended: failures are swallowed, not propagated as typed errors: a
failing listing makes list_files return the empty list, and a single-file
download whose fetch is interrupted makes download_file return None; no
error value reaches the caller in either case. -/
theorem failures_swallowed (hash : String → String) (store : Store)
    (cacheDir : String) (cache : Cache) (remote_path pre leftover : String)
    (force : Bool)
    (hl : store.listFails = true)
    (hc : cacheLookup cache (basename remote_path) = none)
    (hf : store.fetchBehavior remote_path = .interrupted leftover) :
    list_files store pre = [] ∧
    (download_file hash store cacheDir cache remote_path force).result = none := by
  refine ⟨by simp [list_files, hl], ?_⟩
  rcases hsl : storeLookup store.objects remote_path with - | b
  · cases force <;> simp [download_file, hc, hsl]
  · cases force <;> simp [download_file, hc, hsl, hf]

/-- C6 amended witness: a concrete store whose listing raises and whose
fetch of CONTROLE/A.dwg is interrupted: the listing comes back empty and
the download comes back None. -/
theorem failures_swallowed_witness :
    list_files ⟨[⟨"CONTROLE/A.dwg", "bytesA", "abc123"⟩],
        fun _ => .interrupted "x", fun _ => true, true⟩ "CONTROLE/" = [] ∧
    (download_file (fun s => s)
        ⟨[⟨"CONTROLE/A.dwg", "bytesA", "abc123"⟩],
          fun _ => .interrupted "x", fun _ => true, true⟩
        "cache" [] "CONTROLE/A.dwg" false).result = none :=
  failures_swallowed (fun s => s)
    ⟨[⟨"CONTROLE/A.dwg", "bytesA", "abc123"⟩],
      fun _ => .interrupted "x", fun _ => true, true⟩
    "cache" [] "CONTROLE/A.dwg" "CONTROLE/" "x" false rfl (by decide) rfl

/-- C4 amended witness: an interrupted download of CONTROLE/g.dwg into an
empty cache leaves the partial bytes PART visible under g.dwg. -/
theorem download_file_failure_mutates_cache_witness :
    download_file (fun s => s)
      ⟨[⟨"CONTROLE/g.dwg", "FULL", "mFULL"⟩],
        fun _ => .interrupted "PART", fun _ => true, false⟩
      "cache" [] "CONTROLE/g.dwg" false =
      ⟨none, cacheInsert [] (basename "CONTROLE/g.dwg") "PART",
        [("CONTROLE/g.dwg", "cache" ++ "/" ++ basename "CONTROLE/g.dwg")]⟩ ∧
    cacheLookup (cacheInsert [] (basename "CONTROLE/g.dwg") "PART")
      (basename "CONTROLE/g.dwg") = some "PART" :=
  download_file_failure_mutates_cache (fun s => s)
    ⟨[⟨"CONTROLE/g.dwg", "FULL", "mFULL"⟩],
      fun _ => .interrupted "PART", fun _ => true, false⟩
    "cache" [] "CONTROLE/g.dwg" ⟨"CONTROLE/g.dwg", "FULL", "mFULL"⟩ "PART"
    (by decide) (by decide) (by decide)

/-- C7 counterexample: with the loop already running, start_auto_sync
returns to its caller exactly what a fresh, successful start returns
(None), so the caller receives no AlreadyRunning indication; the rejection
exists only as a printed warning. -/
theorem start_auto_sync_counterexample :
    start_auto_sync_ret ⟨true, true⟩ 300 = start_auto_sync_ret ⟨false, false⟩ 300 ∧
    start_auto_sync ⟨true, true⟩ 300 = (⟨true, true⟩, [alreadyRunningMsg]) := by
  decide

/-- C7 amended: when the sync thread is already alive, start_auto_sync
does not start a second loop (the engine state is unchanged) and only
prints a warning; it returns None to the caller, the same value every call
returns, so no AlreadyRunning indication reaches the caller. -/
theorem start_auto_sync_already_running (st : EngineState) (interval : Nat)
    (h : st.threadAlive = true) :
    start_auto_sync st interval = (st, [alreadyRunningMsg]) ∧
    start_auto_sync_ret st interval = none := by
  simp [start_auto_sync, h, start_auto_sync_ret]

/-- C7 amended witness: a running engine state, interval five: the state
is unchanged and the caller gets None. -/
theorem start_auto_sync_already_running_witness :
    start_auto_sync ⟨true, false⟩ 5 = (⟨true, false⟩, [alreadyRunningMsg]) ∧
    start_auto_sync_ret ⟨true, false⟩ 5 = none :=
  start_auto_sync_already_running ⟨true, false⟩ 5 rfl

/-- Helper: the between-cycle sleep loop never sleeps more than its
iteration bound. -/
theorem sleep_loop_le (running : Nat → Bool) :
    ∀ (n t0 : Nat), sleep_loop running t0 n ≤ n := by
  intro n
  induction n with
  | zero => intro t0; simp [sleep_loop]
  | succ n ih =>
      intro t0
      by_cases h : running t0 = true
      · simp only [sleep_loop, h, if_true]
        exact Nat.succ_le_succ (ih (t0 + 1))
      · simp [sleep_loop, h]

/-- Helper: once the running flag is down from time c on, the sleep loop
never sleeps past time c: it checks the flag before every single second of
sleep instead of waiting out the whole interval. -/
theorem sleep_loop_cancel (running : Nat → Bool) (c : Nat)
    (hmono : ∀ t, c ≤ t → running t = false) :
    ∀ (n t0 : Nat), sleep_loop running t0 n ≤ c - t0 := by
  intro n
  induction n with
  | zero => intro t0; simp [sleep_loop]
  | succ n ih =>
      intro t0
      by_cases h : running t0 = true
      · have ht0 : t0 < c := by
          by_contra hge
          have := hmono t0 (by omega)
          simp [this] at h
        have := ih (t0 + 1)
        simp only [sleep_loop, h, if_true]
        omega
      · simp [sleep_loop, h]

/-- Helper: once the running flag is down from time c on, every cycle the
loop ever starts has a start time before c. -/
theorem auto_sync_loop_cancel (running : Nat → Bool) (interval cycleDur c : Nat)
    (hmono : ∀ t, c ≤ t → running t = false) :
    ∀ (fuel t : Nat) (s : Nat),
      s ∈ auto_sync_loop running interval cycleDur t fuel → s < c := by
  intro fuel
  induction fuel with
  | zero => intro _ s hs; simp [auto_sync_loop] at hs
  | succ fuel ih =>
      intro t s hs
      by_cases h : running t = true
      · simp only [auto_sync_loop, h, if_true, List.mem_cons] at hs
        rcases hs with rfl | hs
        · by_contra hge
          have := hmono s (by omega)
          simp [this] at h
        · exact ih _ s hs
      · simp [auto_sync_loop, h] at hs

/-- C8: cancellation of the periodic refresh is observed at one-second
granularity and stops the loop. Once the running flag is cleared at time c
(and stays cleared): the between-cycle sleep never extends past time c and
never past interval seconds, so shutdown latency is bounded by the
one-second polling quantum, not by the interval; no reconciliation cycle
starts at or after time c; and stop_auto_sync, which joins the loop thread
with a five-second timeout, returns within five seconds of c no matter how
long the thread takes to exit. -/
theorem auto_sync_cancellation_bounded (running : Nat → Bool)
    (c t0 interval cycleDur fuel threadExit : Nat)
    (hmono : ∀ t, c ≤ t → running t = false) :
    sleep_loop running t0 interval ≤ min interval (c - t0) ∧
    (auto_sync_loop running interval cycleDur t0 fuel).all
      (fun s => decide (s < c)) = true ∧
    stop_join_delay c threadExit ≤ 5 := by
  refine ⟨le_min (sleep_loop_le running interval t0)
    (sleep_loop_cancel running c hmono interval t0), ?_, Nat.min_le_right _ _⟩
  rw [List.all_eq_true]
  intro s hs
  exact decide_eq_true (auto_sync_loop_cancel running interval cycleDur c hmono fuel t0 s hs)

/-- C8 witness: the flag is cleared at time 2; with interval 10, cycle
duration 1 and fuel 3, the sleep is bounded by two seconds, every cycle
start lies before time 2, and the join delay for a thread exiting at time
100 is at most 5. -/
theorem auto_sync_cancellation_bounded_witness :
    sleep_loop (fun t => decide (t < 2)) 0 10 ≤ min 10 (2 - 0) ∧
    (auto_sync_loop (fun t => decide (t < 2)) 10 1 0 3).all
      (fun s => decide (s < 2)) = true ∧
    stop_join_delay 2 100 ≤ 5 :=
  auto_sync_cancellation_bounded (fun t => decide (t < 2)) 2 0 10 1 3 100
    (fun _ ht => decide_eq_false (Nat.not_lt.mpr ht))

/-- Helper: the upload loop of sync_folder classifies each local file
independently: uploads are the files needing upload whose push succeeds,
skips are the files with a digest-matching remote counterpart, failures
are the files needing upload whose push fails, and the push calls are
exactly the remote paths of the files needing upload, in order. -/
theorem processLocals_partition (hash : String → String) (store : Store)
    (pre : String) (remotes : List FileInfo) :
    ∀ l : List (String × String),
      processLocals hash store pre remotes l =
        (⟨l.countP (fun f => needsUpload hash remotes f && store.pushBehavior (pre ++ f.1)),
          l.countP (fun f => !needsUpload hash remotes f),
          l.countP (fun f => needsUpload hash remotes f && !store.pushBehavior (pre ++ f.1))⟩,
          (l.filter (needsUpload hash remotes)).map (fun f => pre ++ f.1)) := by
  intro l
  induction l with
  | nil => simp [processLocals]
  | cons f rest ih =>
      obtain ⟨fname, contents⟩ := f
      rcases hrd : remoteDict remotes fname with - | rf
      · have hnu : needsUpload hash remotes (fname, contents) = true := by
          simp [needsUpload, hrd]
        by_cases hp : store.pushBehavior (pre ++ fname) = true
        · simp [processLocals, ih, hrd, upload_file, hp, List.countP_cons, hnu,
            List.filter_cons]
        · simp [processLocals, ih, hrd, upload_file, hp, List.countP_cons, hnu,
            List.filter_cons]
      · by_cases hh : (hash contents == rf.md5_hash) = true
        · have hnu : needsUpload hash remotes (fname, contents) = false := by
            simp [needsUpload, hrd, hh]
          simp [processLocals, ih, hrd, hh, List.countP_cons, hnu, List.filter_cons]
        · have hnu : needsUpload hash remotes (fname, contents) = true := by
            simp [needsUpload, hrd, hh]
          by_cases hp : store.pushBehavior (pre ++ fname) = true
          · simp [processLocals, ih, hrd, hh, upload_file, hp, List.countP_cons, hnu,
              List.filter_cons]
          · simp [processLocals, ih, hrd, hh, upload_file, hp, List.countP_cons, hnu,
              List.filter_cons]

/-- C9: sync_folder skips exactly the local .dwg files whose digest
matches their remote counterpart and uploads exactly the others: the
skipped counter counts the digest matches, the uploaded counter counts
the files needing upload whose push succeeds, the failed counter counts
the files needing upload whose push fails, and the upload calls performed
are exactly the remote paths of the files needing upload. -/
theorem sync_folder_upload_partition (hash : String → String) (store : Store)
    (localFiles : List (String × String)) (pre : String) :
    sync_folder hash store localFiles pre =
      (⟨(localFiles.filter (fun f => strEndsWith (lowerStr f.1) ".dwg")).countP
          (fun f => needsUpload hash (list_files store pre) f &&
            store.pushBehavior (pre ++ f.1)),
        (localFiles.filter (fun f => strEndsWith (lowerStr f.1) ".dwg")).countP
          (fun f => !needsUpload hash (list_files store pre) f),
        (localFiles.filter (fun f => strEndsWith (lowerStr f.1) ".dwg")).countP
          (fun f => needsUpload hash (list_files store pre) f &&
            !store.pushBehavior (pre ++ f.1))⟩,
        ((localFiles.filter (fun f => strEndsWith (lowerStr f.1) ".dwg")).filter
          (needsUpload hash (list_files store pre))).map (fun f => pre ++ f.1)) :=
  processLocals_partition hash store pre (list_files store pre)
    (localFiles.filter (fun f => strEndsWith (lowerStr f.1) ".dwg"))

/-- Helper: looking a name up in the cache after writing a file of a
different name is looking it up in the old cache. -/
theorem find_filter_ne (c : Cache) (k n : String) (h : n ≠ k) :
    (c.filter (fun e => e.1 != k)).find? (fun e => e.1 == n) =
      c.find? (fun e => e.1 == n) := by
  induction c with
  | nil => rfl
  | cons e rest ih =>
      by_cases he : e.1 = n
      · have hq : (e.1 != k) = true := by simp [he, h]
        have hp : (e.1 == n) = true := by simp [he]
        simp [List.filter_cons, hq, List.find?, hp]
      · have hp : (e.1 == n) = false := by simp [he]
        by_cases hq : (e.1 != k) = true
        · simp [List.filter_cons, hq, List.find?, hp, ih]
        · simp [List.filter_cons, hq, List.find?, hp, ih]

/-- Helper: the freshly written file is what a lookup of its name sees. -/
theorem cacheLookup_insert_self (c : Cache) (k v : String) :
    cacheLookup (cacheInsert c k v) k = some v := by
  simp [cacheLookup, cacheInsert, List.find?]

/-- Helper: writing a file leaves every other name unchanged. -/
theorem cacheLookup_insert_ne (c : Cache) (k v n : String) (h : n ≠ k) :
    cacheLookup (cacheInsert c k v) n = cacheLookup c n := by
  have hk : (k == n) = false := by simp [Ne.symm h]
  simp [cacheLookup, cacheInsert, List.find?, hk, find_filter_ne c k n h]

/-- Helper: in a bucket whose paths are pairwise distinct (object-store
keys), looking up the path of a member finds that member. -/
theorem storeLookup_of_mem :
    ∀ (objects : List Blob) (b : Blob),
      (objects.map Blob.path).Nodup → b ∈ objects →
      storeLookup objects b.path = some b := by
  intro objects
  induction objects with
  | nil => intro b _ hb; cases hb
  | cons a rest ih =>
      intro b hnd hb
      rw [List.map_cons, List.nodup_cons] at hnd
      rcases List.mem_cons.mp hb with rfl | hmem
      · simp [storeLookup, List.find?]
      · have hne : (a.path == b.path) = false := by
          rw [beq_eq_false_iff_ne]
          intro he
          exact hnd.1 (he ▸ List.mem_map_of_mem Blob.path hmem)
        simpa [storeLookup, List.find?, hne] using ih b hnd.2 hmem

/-- Helper: a listing entry comes from a bucket blob that passes the
filter. -/
theorem mem_list_files {store : Store} {pre : String} {f : FileInfo}
    (hf : f ∈ list_files store pre) :
    ∃ b, b ∈ store.objects ∧ keepsBlob pre b = true ∧ toFileInfo b = f := by
  unfold list_files at hf
  split at hf
  · exact absurd hf (List.not_mem_nil f)
  · rw [List.mem_map] at hf
    obtain ⟨b, hbmem, hbf⟩ := hf
    rw [List.mem_filter] at hbmem
    exact ⟨b, hbmem.1, hbmem.2, hbf⟩

/-- Helper: when the cache is good for a file, download_file with force
unset serves it from the cache, with no fetch and no cache change. -/
theorem download_file_good_hit (hash : String → String) (store : Store)
    (cacheDir : String) (c : Cache) (f : FileInfo) (b : Blob)
    (hsl : storeLookup store.objects f.caminho = some b)
    (hmd : b.md5_hash = f.md5_hash)
    (hg : GoodFor hash c f) :
    download_file hash store cacheDir c f.caminho false =
      ⟨some (cacheDir ++ "/" ++ basename f.caminho, .cached), c, []⟩ := by
  obtain ⟨content, hlook, hhash⟩ := hg
  have hb : (hash content == b.md5_hash) = true := beq_iff_eq.mpr (by rw [hhash, hmd])
  simp [download_file, hlook, hsl, hb]

/-- Helper: after download_file processes a listed file whose blob is
present and fetchable, the cache is good for that file, and every other
name is untouched. -/
theorem download_file_makes_good (hash : String → String) (store : Store)
    (cacheDir : String) (c : Cache) (f : FileInfo) (b : Blob)
    (hsl : storeLookup store.objects f.caminho = some b)
    (hmd : b.md5_hash = f.md5_hash)
    (hhon : b.md5_hash = hash b.content)
    (hfe : store.fetchBehavior f.caminho = .success) :
    GoodFor hash (download_file hash store cacheDir c f.caminho false).cache f ∧
    ∀ n, n ≠ basename f.caminho →
      cacheLookup (download_file hash store cacheDir c f.caminho false).cache n =
        cacheLookup c n := by
  have hdl : hash b.content = f.md5_hash := by rw [← hhon, hmd]
  rcases hcl : cacheLookup c (basename f.caminho) with - | content
  · have hdf : (download_file hash store cacheDir c f.caminho false).cache =
        cacheInsert c (basename f.caminho) b.content := by
      simp [download_file, hcl, hsl, hfe]
    rw [hdf]
    exact ⟨⟨b.content, cacheLookup_insert_self c _ _, hdl⟩,
      fun n hn => cacheLookup_insert_ne c _ _ n hn⟩
  · by_cases hh : (hash content == b.md5_hash) = true
    · have hdf : (download_file hash store cacheDir c f.caminho false).cache = c := by
        simp [download_file, hcl, hsl, hh]
      rw [hdf]
      refine ⟨⟨content, hcl, ?_⟩, fun n _ => rfl⟩
      rw [beq_iff_eq] at hh
      rw [hh, hmd]
    · have hdf : (download_file hash store cacheDir c f.caminho false).cache =
          cacheInsert c (basename f.caminho) b.content := by
        simp [download_file, hcl, hsl, hh, hfe]
      rw [hdf]
      exact ⟨⟨b.content, cacheLookup_insert_self c _ _, hdl⟩,
        fun n hn => cacheLookup_insert_ne c _ _ n hn⟩

/-- Helper: the final cache of the download_all loop over a nonempty list
is the final cache of the loop over the tail, started from the cache the
head leaves behind; the head only influences the counters. -/
theorem processFiles_cache_cons (hash : String → String) (store : Store)
    (cacheDir : String) (force : Bool) (f : FileInfo) (rest : List FileInfo)
    (c : Cache) :
    (processFiles hash store cacheDir force (f :: rest) c).2 =
      (processFiles hash store cacheDir force rest
        (download_file hash store cacheDir c f.caminho force).cache).2 := by
  simp only [processFiles]
  rcases hr : (download_file hash store cacheDir c f.caminho force).result with - | ⟨p, st⟩
  · simp [hr]
  · cases st <;> simp [hr]

/-- Helper: after one pass of the download_all loop over listed files with
pairwise distinct names, all fetches succeeding and honest digest
metadata, the final cache is good for every processed file, and names of
unprocessed files are untouched. -/
theorem processFiles_good (hash : String → String) (store : Store)
    (cacheDir : String)
    (hpaths : (store.objects.map Blob.path).Nodup)
    (hfetch : ∀ p, store.fetchBehavior p = .success)
    (honest : ∀ b ∈ store.objects, b.md5_hash = hash b.content) :
    ∀ (l : List FileInfo) (c : Cache),
      (∀ f ∈ l, f ∈ list_files store "CONTROLE/") →
      (l.map (fun f => basename f.caminho)).Nodup →
      (∀ f ∈ l, GoodFor hash (processFiles hash store cacheDir false l c).2 f) ∧
      (∀ n, n ∉ l.map (fun f => basename f.caminho) →
        cacheLookup (processFiles hash store cacheDir false l c).2 n =
          cacheLookup c n) := by
  intro l
  induction l with
  | nil =>
      intro c _ _
      exact ⟨fun f hf => absurd hf (List.not_mem_nil f), fun n _ => rfl⟩
  | cons f rest ih =>
      intro c hsub hnd
      obtain ⟨b, hbmem, hkeep, hbf⟩ := mem_list_files (hsub f (List.mem_cons_self f rest))
      have hcam : f.caminho = b.path := by rw [← hbf]; rfl
      have hsl : storeLookup store.objects f.caminho = some b := by
        rw [hcam]; exact storeLookup_of_mem store.objects b hpaths hbmem
      have hmd : b.md5_hash = f.md5_hash := by rw [← hbf]; rfl
      have hstep := download_file_makes_good hash store cacheDir c f b hsl hmd
        (honest b hbmem) (hfetch f.caminho)
      rw [List.map_cons, List.nodup_cons] at hnd
      have hsub' : ∀ g ∈ rest, g ∈ list_files store "CONTROLE/" :=
        fun g hg => hsub g (List.mem_cons_of_mem f hg)
      have ihr := ih ((download_file hash store cacheDir c f.caminho false).cache)
        hsub' hnd.2
      have hcc := processFiles_cache_cons hash store cacheDir false f rest c
      constructor
      · intro g hg
        rcases List.mem_cons.mp hg with rfl | hgr
        · obtain ⟨content, hlk, hh⟩ := hstep.1
          refine ⟨content, ?_, hh⟩
          rw [hcc, ihr.2 (basename g.caminho) hnd.1]
          exact hlk
        · obtain ⟨content, hlk, hh⟩ := ihr.1 g hgr
          refine ⟨content, ?_, hh⟩
          rw [hcc]
          exact hlk
      · intro n hn
        simp only [List.map_cons, List.mem_cons, not_or] at hn
        rw [hcc, ihr.2 n hn.2]
        exact hstep.2 n hn.1

/-- Helper: a pass of the download_all loop over listed files for which
the cache is already good downloads nothing: every file is counted as
cached and the cache is unchanged. -/
theorem processFiles_all_cached (hash : String → String) (store : Store)
    (cacheDir : String)
    (hpaths : (store.objects.map Blob.path).Nodup) :
    ∀ (l : List FileInfo) (c : Cache),
      (∀ f ∈ l, f ∈ list_files store "CONTROLE/") →
      (∀ f ∈ l, GoodFor hash c f) →
      processFiles hash store cacheDir false l c = (⟨0, l.length, 0⟩, c) := by
  intro l
  induction l with
  | nil => intro c _ _; rfl
  | cons f rest ih =>
      intro c hsub hgood
      obtain ⟨b, hbmem, hkeep, hbf⟩ := mem_list_files (hsub f (List.mem_cons_self f rest))
      have hcam : f.caminho = b.path := by rw [← hbf]; rfl
      have hsl : storeLookup store.objects f.caminho = some b := by
        rw [hcam]; exact storeLookup_of_mem store.objects b hpaths hbmem
      have hmd : b.md5_hash = f.md5_hash := by rw [← hbf]; rfl
      have hdf := download_file_good_hit hash store cacheDir c f b hsl hmd
        (hgood f (List.mem_cons_self f rest))
      have ihr := ih c (fun g hg => hsub g (List.mem_cons_of_mem f hg))
        (fun g hg => hgood g (List.mem_cons_of_mem f hg))
      simp [processFiles, hdf, ihr]

/-- C5: running download_all twice in a row against the same unchanged
remote store, with force unset, yields a second report that downloads
nothing and counts every listed object as cached. Hypotheses: the bucket
paths are pairwise distinct (object-store keys are unique), all fetches
succeed and the md5_hash metadata is the digest of the blob content (the
remote is reachable and honest, the sense in which it is unchanged), and
the listed objects have pairwise distinct basenames (the data-model
invariant that names are unique within a listing; with a basename
collision the cache file is shared and the property genuinely fails). -/
theorem download_all_idempotent (hash : String → String) (store : Store)
    (cacheDir : String) (cache0 : Cache)
    (hpaths : (store.objects.map Blob.path).Nodup)
    (hfetch : ∀ p, store.fetchBehavior p = .success)
    (honest : ∀ b ∈ store.objects, b.md5_hash = hash b.content)
    (hnames : ((list_files store "CONTROLE/").map
      (fun f => basename f.caminho)).Nodup) :
    (download_all hash store cacheDir
        (download_all hash store cacheDir cache0 false).2 false).1.downloaded = 0 ∧
    (download_all hash store cacheDir
        (download_all hash store cacheDir cache0 false).2 false).1.cached =
      (list_files store "CONTROLE/").length := by
  have hgood := (processFiles_good hash store cacheDir hpaths hfetch honest
    (list_files store "CONTROLE/") cache0 (fun f hf => hf) hnames).1
  have hsecond := processFiles_all_cached hash store cacheDir hpaths
    (list_files store "CONTROLE/")
    ((processFiles hash store cacheDir false (list_files store "CONTROLE/") cache0).2)
    (fun f hf => hf) hgood
  unfold download_all
  rw [hsecond]
  exact ⟨rfl, rfl⟩

/-- C5 witness: a one-object store with identity digest function: the
second run reports zero downloads and one cached file. -/
theorem download_all_idempotent_witness :
    (download_all (fun s => s)
        ⟨[⟨"CONTROLE/a.dwg", "X", "X"⟩], fun _ => .success, fun _ => true, false⟩
        "cache"
        (download_all (fun s => s)
          ⟨[⟨"CONTROLE/a.dwg", "X", "X"⟩], fun _ => .success, fun _ => true, false⟩
          "cache" [] false).2 false).1.downloaded = 0 ∧
    (download_all (fun s => s)
        ⟨[⟨"CONTROLE/a.dwg", "X", "X"⟩], fun _ => .success, fun _ => true, false⟩
        "cache"
        (download_all (fun s => s)
          ⟨[⟨"CONTROLE/a.dwg", "X", "X"⟩], fun _ => .success, fun _ => true, false⟩
          "cache" [] false).2 false).1.cached =
      (list_files
        ⟨[⟨"CONTROLE/a.dwg", "X", "X"⟩], fun _ => .success, fun _ => true, false⟩
        "CONTROLE/").length :=
  download_all_idempotent (fun s => s)
    ⟨[⟨"CONTROLE/a.dwg", "X", "X"⟩], fun _ => .success, fun _ => true, false⟩
    "cache" [] (by decide) (fun p => rfl) (by decide) (by decide)

end FirebaseSync
